import Mathlib

/-!
# Verification of the HMMT archive PDF scraper (`src/main.py`)

Shallow embedding of the scraper's data model and operations:

* the tenacity retry policy built by `retry_async()` —
  `stop_after_attempt(5)`, `wait_exponential(multiplier=1, min=1, max=10)`,
  `reraise=True`;
* the link extraction of `get_links_in_content` over a parsed-HTML tree model;
* CPython `urllib.parse` resolution (`urlsplit`/`urlparse`/`urlunsplit`/
  `urlunparse`/`urljoin`) and `os.path` basename/splitext/join;
* collision-avoidant naming of `download_file`;
* the discovery and download loops of `scrape`, including which exceptions the
  `except RetryError` handlers can actually catch;
* a small-step semantics of the `asyncio.Semaphore`-guarded attempts.

Network, clock and RNG nondeterminism is supplied by explicit environments
(`Env`, per-attempt outcome functions, a random pick stream).  Machine
integers do not occur: every numeric quantity in the program (attempt counts,
backoff seconds) is a small nonnegative integer, modelled as `Nat`.
-/

namespace Scraper

/-! ## Errors and exceptions

A single network attempt can fail with a timeout (`async_timeout`), a non-2xx
status (`response.raise_for_status()`), or a connection error.  The value
carried is irrelevant to control flow; we keep the taxonomy. -/

inductive NetErr where
  | timeout : NetErr
  | status : Nat → NetErr
  | connError : String → NetErr
deriving DecidableEq, Repr

/-- The exception surfaced by a tenacity-wrapped call, as seen by a caller:
either a `tenacity.RetryError` wrapper, or a directly (re)raised underlying
exception.  `except RetryError` clauses catch exactly the first form. -/
inductive PyExc where
  | retryError : NetErr → PyExc
  | raised : NetErr → PyExc
deriving DecidableEq, Repr

/-! ## The retry policy of `retry_async` (src/main.py lines 65–79)

`retry_async()` returns
`retry(stop=stop_after_attempt(5), wait=wait_exponential(multiplier=1, min=1, max=10), reraise=True)`.

From the tenacity sources:
* `stop_after_attempt(n)` stops once `retry_state.attempt_number >= n`;
* `wait_exponential.__call__` computes
  `exp = exp_base ** (attempt_number - 1); result = multiplier * exp` and
  returns `max(max(0, min), min(result, max))` (`exp_base = 2`);
* with `reraise=True`, exhaustion re-raises the LAST underlying exception
  instead of raising `RetryError`. -/

def maxAttempts : Nat := 5

/-- tenacity `wait_exponential(multiplier, min=lo, max=hi)` evaluated at
`attempt_number = k`.  All configured values are integral seconds. -/
def wait_exponential (multiplier lo hi k : Nat) : Nat :=
  max (max 0 lo) (min (multiplier * 2 ^ (k - 1)) hi)

/-- The wait configured by `retry_async()`: `multiplier=1, min=1, max=10`. -/
def retryWait (k : Nat) : Nat :=
  wait_exponential 1 1 10 k

/-- Execute attempts `k, k+1, ...` of `f`, with `fuel` more attempts allowed
after attempt `k` before the stop condition triggers.  Returns the surfaced
outcome together with the list of attempt numbers actually invoked, in order.
With `reraise=True` the surfaced exception on exhaustion is the last
underlying exception (`PyExc.raised`), never `PyExc.retryError`. -/
def retryGo {α : Type} (f : Nat → Except NetErr α) : Nat → Nat → Except PyExc α × List Nat
  | 0, k =>
    match f k with
    | .ok a => (.ok a, [k])
    | .error e => (.error (.raised e), [k])
  | n + 1, k =>
    match f k with
    | .ok a => (.ok a, [k])
    | .error _ =>
      let r := retryGo f n (k + 1)
      (r.1, k :: r.2)

/-- A call to a function decorated with `@retry_async()`, where `f k` is the
outcome of its `k`-th attempt (attempts are numbered from 1). -/
def retryCall {α : Type} (f : Nat → Except NetErr α) : Except PyExc α × List Nat :=
  retryGo f (maxAttempts - 1) 1

/-- The backoff sleeps performed during a `retryCall`: tenacity sleeps
`retryWait k` after each failed, non-final attempt `k` (no sleep follows the
last attempt). -/
def retrySchedule {α : Type} (f : Nat → Except NetErr α) : List Nat :=
  (retryCall f).2.dropLast.map retryWait

/-! ## Python string and path primitives

Strings are modelled as Lean `String` (a packed `List Char`).  `str.lower` is
modelled on the ASCII range, which is the alphabet of the URLs the scraper
manipulates. -/

def pyLowerChar (c : Char) : Char :=
  if 65 ≤ c.toNat ∧ c.toNat ≤ 90 then Char.ofNat (c.toNat + 32) else c

def pyLower (s : String) : String :=
  ⟨s.data.map pyLowerChar⟩

/-- Python `s.endswith(suffix)`. -/
def pyEndsWith (s suf : String) : Bool :=
  List.isSuffixOf suf.data s.data

/-- Python `s.rfind(c)`: index of the last occurrence of `c`, or `-1`. -/
def pyRfind (s : String) (c : Char) : Int :=
  match ((List.range s.data.length).filter (fun i => s.data.getD i ' ' == c)).getLast? with
  | some i => (i : Int)
  | none => -1

/-- First index of `c` in `cs` at or after position `start` (Python
`s.find(c, start)` as an `Option`). -/
def findIdxFrom (cs : List Char) (c : Char) (start : Nat) : Option Nat :=
  match (cs.drop start).findIdx? (fun x => x == c) with
  | some i => some (start + i)
  | none => none

/-- Split `cs` at the first occurrence of `c` (occurrence removed). -/
def splitOnceChar (cs : List Char) (c : Char) : Option (List Char × List Char) :=
  match cs.findIdx? (fun x => x == c) with
  | some i => some (cs.take i, cs.drop (i + 1))
  | none => none

/-- Split a character list at every occurrence of `c` (Python
`s.split(c)` on the pieces level): `splitChar c "a//b" = ["a", "", "b"]`,
`splitChar c "" = [""]`. -/
def splitChar (c : Char) : List Char → List (List Char)
  | [] => [[]]
  | x :: xs =>
    let r := splitChar c xs
    if x == c then [] :: r else (x :: r.headD []) :: r.tail

/-- Python `s.split('/')`. -/
def pySplitSlash (s : String) : List String :=
  (splitChar '/' s.data).map (fun cs => ⟨cs⟩)

/-- Python `'/'.join(parts)`. -/
def pyJoinSlash : List String → String
  | [] => ""
  | [p] => p
  | p :: ps => p ++ "/" ++ pyJoinSlash ps

/-- Python `os.path.basename` (posix): everything after the last `/`. -/
def pyBasename (p : String) : String :=
  ⟨p.data.reverse.takeWhile (fun c => c ≠ '/') |>.reverse⟩

/-- Python `os.path.splitext` (posix): split off the extension at the last dot of the
final path component, unless that component consists of leading dots only. -/
def pySplitext (p : String) : String × String :=
  let sepIndex := pyRfind p '/'
  let dotIndex := pyRfind p '.'
  if sepIndex < dotIndex then
    let start := (sepIndex + 1).toNat
    let dotN := dotIndex.toNat
    if (List.range' start (dotN - start)).all (fun i => p.data.getD i ' ' == '.') then
      (p, "")
    else
      (⟨p.data.take dotN⟩, ⟨p.data.drop dotN⟩)
  else
    (p, "")

/-- Python `os.path.join(a, b)` (posix, two arguments). -/
def pyPathJoin (a b : String) : String :=
  if b.data.headD ' ' = '/' then b
  else if a = "" ∨ a.data.getLastD ' ' = '/' then a ++ b
  else a ++ "/" ++ b

/-! ## CPython `urllib.parse`

Modelled from the CPython 3.11 sources: `urlsplit`, `urlparse`,
`urlunsplit`, `urlunparse`, `urljoin` and their helpers
(`_splitnetloc`, `_splitparams`), over the `uses_relative` /
`uses_netloc` / `uses_params` scheme tables. -/

def usesRelative : List String :=
  ["", "ftp", "http", "gopher", "nntp", "imap", "wais", "file", "https",
   "shttp", "mms", "prospero", "rtsp", "rtspu", "sftp", "svn", "svn+ssh",
   "ws", "wss"]

def usesNetloc : List String :=
  ["", "ftp", "http", "gopher", "nntp", "telnet", "imap", "wais", "file",
   "mms", "https", "shttp", "snews", "prospero", "rtsp", "rtspu", "rsync",
   "svn", "svn+ssh", "sftp", "nfs", "git", "git+ssh", "ws", "wss",
   "itms-services"]

def usesParams : List String :=
  ["", "ftp", "hdl", "prospero", "http", "imap", "svn", "svn+ssh", "sftp",
   "nfs", "git", "git+ssh", "https", "shttp", "rtsp", "rtspu", "sip",
   "sips", "mms", "tel"]

def isAsciiAlpha (c : Char) : Bool :=
  decide ((97 ≤ c.toNat ∧ c.toNat ≤ 122) ∨ (65 ≤ c.toNat ∧ c.toNat ≤ 90))

/-- Characters allowed in a URL scheme (`scheme_chars`). -/
def isSchemeChar (c : Char) : Bool :=
  decide ((97 ≤ c.toNat ∧ c.toNat ≤ 122) ∨ (65 ≤ c.toNat ∧ c.toNat ≤ 90) ∨
    (48 ≤ c.toNat ∧ c.toNat ≤ 57) ∨ c = '+' ∨ c = '-' ∨ c = '.')

/-- Scheme detection of `urlsplit`: a `:` at position `i > 0`, first character
an ASCII letter, and every character before the `:` a scheme character.
Returns the raw scheme and the remainder after the `:`, or `none` when the
input carries no recognizable scheme. -/
def splitScheme (cs : List Char) : Option (List Char × List Char) :=
  match cs.findIdx? (fun c => c == ':') with
  | none => none
  | some i =>
    if 0 < i ∧ isAsciiAlpha (cs.headD ' ') = true ∧ (cs.take i).all isSchemeChar = true then
      some (cs.take i, cs.drop (i + 1))
    else
      none

/-- CPython `_splitnetloc` after the leading `//`: the netloc extends to the first
`/`, `?` or `#`. -/
def splitNetloc (cs : List Char) : List Char × List Char :=
  (cs.takeWhile (fun c => !(c == '/' || c == '?' || c == '#')),
   cs.dropWhile (fun c => !(c == '/' || c == '?' || c == '#')))

structure SplitResult where
  scheme : String
  netloc : String
  path : String
  query : String
  fragment : String
deriving DecidableEq, Repr

structure ParseResult where
  scheme : String
  netloc : String
  path : String
  params : String
  query : String
  fragment : String
deriving DecidableEq, Repr

/-- CPython `urlsplit(url, scheme0)` (with `allow_fragments=True`). -/
def urlsplit (url scheme0 : String) : SplitResult :=
  let p1 : String × List Char :=
    match splitScheme url.data with
    | some (sch, rest) => (pyLower ⟨sch⟩, rest)
    | none => (scheme0, url.data)
  let p2 : List Char × List Char :=
    if p1.2.take 2 = ['/', '/'] then splitNetloc (p1.2.drop 2) else ([], p1.2)
  let p3 : List Char × List Char :=
    match splitOnceChar p2.2 '#' with
    | some (a, b) => (a, b)
    | none => (p2.2, [])
  let p4 : List Char × List Char :=
    match splitOnceChar p3.1 '?' with
    | some (a, b) => (a, b)
    | none => (p3.1, [])
  ⟨p1.1, ⟨p2.1⟩, ⟨p4.1⟩, ⟨p4.2⟩, ⟨p3.2⟩⟩

/-- CPython `_splitparams`: split `;params` off the last path segment. -/
def pySplitparams (url : String) : String × String :=
  let cs := url.data
  let i? : Option Nat :=
    if cs.contains '/' then
      findIdxFrom cs ';' (pyRfind url '/').toNat
    else
      cs.findIdx? (fun c => c == ';')
  match i? with
  | none => (url, "")
  | some i => (⟨cs.take i⟩, ⟨cs.drop (i + 1)⟩)

/-- CPython `urlparse(url, scheme0)`. -/
def urlparse (url scheme0 : String) : ParseResult :=
  let s := urlsplit url scheme0
  if s.scheme ∈ usesParams ∧ s.path.data.contains ';' then
    let pp := pySplitparams s.path
    ⟨s.scheme, s.netloc, pp.1, pp.2, s.query, s.fragment⟩
  else
    ⟨s.scheme, s.netloc, s.path, "", s.query, s.fragment⟩

/-- CPython `urlunsplit`. -/
def urlunsplit (scheme netloc path query fragment : String) : String :=
  let u1 :=
    if netloc ≠ "" ∨ path.data.take 2 = ['/', '/'] then
      let p := if path ≠ "" ∧ path.data.headD ' ' ≠ '/' then "/" ++ path else path
      "//" ++ netloc ++ p
    else path
  let u2 := if scheme ≠ "" then scheme ++ ":" ++ u1 else u1
  let u3 := if query ≠ "" then u2 ++ "?" ++ query else u2
  if fragment ≠ "" then u3 ++ "#" ++ fragment else u3

/-- CPython `urlunparse`. -/
def urlunparse (r : ParseResult) : String :=
  let u := if r.params ≠ "" then r.path ++ ";" ++ r.params else r.path
  urlunsplit r.scheme r.netloc u r.query r.fragment

/-- The dot-segment elimination loop of `urljoin`. -/
def resolveSegments (segments : List String) : List String :=
  segments.foldl
    (fun acc seg =>
      if seg = ".." then acc.dropLast
      else if seg = "." then acc
      else acc ++ [seg])
    []

/-- The slice assignment `segments[1:-1] = filter(None, segments[1:-1])`. -/
def filterMiddle (segs : List String) : List String :=
  if segs.length ≤ 1 then segs
  else segs.take 1 ++ ((segs.drop 1).dropLast.filter (fun s => s ≠ "")) ++ [segs.getLastD ""]

/-- CPython `urljoin(base, url)`. -/
def urljoin (base url : String) : String :=
  if base = "" then url
  else if url = "" then base
  else
    let b := urlparse base ""
    let u := urlparse url b.scheme
    if u.scheme ≠ b.scheme ∨ u.scheme ∉ usesRelative then url
    else if u.scheme ∈ usesNetloc ∧ u.netloc ≠ "" then
      urlunparse u
    else
      let netloc := if u.scheme ∈ usesNetloc then b.netloc else u.netloc
      if u.path = "" ∧ u.params = "" then
        let query := if u.query = "" then b.query else u.query
        urlunparse ⟨u.scheme, netloc, b.path, b.params, query, u.fragment⟩
      else
        let baseParts0 := pySplitSlash b.path
        let baseParts := if baseParts0.getLastD "" ≠ "" then baseParts0.dropLast else baseParts0
        let segments :=
          if u.path ≠ "" ∧ u.path.data.headD ' ' = '/' then pySplitSlash u.path
          else filterMiddle (baseParts ++ pySplitSlash u.path)
        let res0 := resolveSegments segments
        let resolved :=
          if segments.getLastD "" = "." ∨ segments.getLastD "" = ".." then res0 ++ [""]
          else res0
        let rpath0 := pyJoinSlash resolved
        let rpath := if rpath0 = "" then "/" else rpath0
        urlunparse ⟨u.scheme, netloc, rpath, u.params, u.query, u.fragment⟩

/-! ## Parsed HTML and `get_links_in_content` (src/main.py lines 144–159)

`BeautifulSoup(html, "html.parser")` is lenient and total, so a successfully
fetched page is modelled as an already-parsed forest of nodes.  `soup.find`
returns the first match in document (pre-order) order; `find_all` walks the
descendants of the found tag in document order. -/

mutual

inductive Node where
  | elem (tag : String) (attrs : List (String × String)) (children : NodeList)
  | text (s : String)

inductive NodeList where
  | nil
  | cons (head : Node) (tail : NodeList)

end

/-- A parsed document: the forest of top-level nodes. -/
abbrev Doc := NodeList

/-- Convenience constructor for concrete documents. -/
def NodeList.ofList : List Node → NodeList
  | [] => .nil
  | n :: ns => .cons n (NodeList.ofList ns)

/-- Attribute lookup (first binding wins, as in a parsed attribute dict). -/
def attrGet (attrs : List (String × String)) (key : String) : Option String :=
  match attrs.find? (fun a => a.1 == key) with
  | some a => some a.2
  | none => none

/-- The test of `soup.find("div", id="content")`. -/
def isContentDiv : Node → Bool
  | .elem tag attrs _ => tag == "div" && attrGet attrs "id" == some "content"
  | .text _ => false

mutual

/-- Model of `soup.find`: first matching tag in pre-order, the element itself before
its descendants. -/
def findNode (p : Node → Bool) : Node → Option Node
  | .text _ => none
  | .elem tag attrs children =>
    if p (.elem tag attrs children) then some (.elem tag attrs children)
    else findNodeList p children

def findNodeList (p : Node → Bool) : NodeList → Option Node
  | .nil => none
  | .cons n ns =>
    match findNode p n with
    | some r => some r
    | none => findNodeList p ns

end

mutual

/-- Model of `tag.find_all("a", href=True)` projected to the `href` values: the hrefs
of anchor descendants, in document order (the node itself included when it is
an anchor). -/
def anchorHrefs : Node → List String
  | .text _ => []
  | .elem tag attrs children =>
    (match (if tag == "a" then attrGet attrs "href" else none) with
     | some h => [h]
     | none => []) ++ anchorHrefsList children

def anchorHrefsList : NodeList → List String
  | .nil => []
  | .cons n ns => anchorHrefs n ++ anchorHrefsList ns

end

/-- The pure part of `get_links_in_content(session, url)` applied to the
fetched document: find the content div; if absent return `[]`; otherwise
resolve the `href` of every anchor inside it against `url`. -/
def extractLinks (pageURL : String) (doc : Doc) : List String :=
  match findNodeList isContentDiv doc with
  | none => []
  | some cd =>
    (match cd with
     | .elem _ _ children => anchorHrefsList children
     | .text _ => []).map (fun h => urljoin pageURL h)

/-! ### Spec-side restatement of the Link Extractor contract (for C4)

An independent rendering of the spec's words (§4.2, §8): the single designated
content container is the first element with the marker in document order; the
output is the `href` of every anchor descendant, in document order, resolved
against the base URL; absent container means empty sequence. -/

mutual

/-- All nodes of a tree in document (pre-order) order. -/
def preorder : Node → List Node
  | .text s => [.text s]
  | .elem tag attrs children => .elem tag attrs children :: preorderList children

def preorderList : NodeList → List Node
  | .nil => []
  | .cons n ns => preorder n ++ preorderList ns

end

/-- The `href` of an anchor element carrying one. -/
def anchorHrefOf : Node → Option String
  | .elem tag attrs _ => if tag == "a" then attrGet attrs "href" else none
  | .text _ => none

/-- Modelled from the spec (§4.2/§8): `extractLinks` as the spec words it. -/
def extractLinksSpec (pageURL : String) (doc : Doc) : List String :=
  match (preorderList doc).find? isContentDiv with
  | none => []
  | some (.elem _ _ children) =>
    ((preorderList children).filterMap anchorHrefOf).map (urljoin pageURL)
  | some (.text _) => []

/-! ## Collision-avoidant naming (src/main.py lines 82–90 and 127–131) -/

/-- Python `string.ascii_letters + string.digits`, the 62-character alphabet of
`random_string`. -/
def asciiAlnum : List Char :=
  "abcdefghijklmnopqrstuvwxyzABCDEFGHIJKLMNOPQRSTUVWXYZ0123456789".data

/-- Model of `random_string(length)` with the RNG's successive choices supplied by
`pickc`. -/
def random_string (pickc : Nat → Fin 62) (length : Nat) : String :=
  ⟨(List.range length).map (fun i => asciiAlnum.getD (pickc i).val 'a')⟩

/-- The `unique_filename` computed by `download_file`:
`f"{name}_{random_string(12)}{ext}"` where
`name, ext = os.path.splitext(os.path.basename(urlparse(url).path))`. -/
def uniqueFilename (url suffix : String) : String :=
  let filename := pyBasename (urlparse url "").path
  let ne := pySplitext filename
  ne.1 ++ "_" ++ suffix ++ ne.2

/-! ## The run model of `scrape` (src/main.py lines 162–206)

Network nondeterminism is an explicit environment: `pageAttempt url k` is the
outcome of the `k`-th GET attempt for a page (a successful fetch yields the
parsed document), `dlAttempt url k` likewise for a file download, and
`pick i` is the RNG stream used by the `i`-th download task (only the suffix
of the attempt that completes the download is observable, since failed
attempts write nothing).

The jitter sleep, the semaphore and the timeouts do not alter data flow and
are modelled separately (`SemSys`); `tqdm` is a transparent wrapper;
`asyncio.as_completed` completion order is modelled as task order.  A raised
exception in the loops of `scrape` is caught there when and only when it is a
`tenacity.RetryError` (`PyExc.retryError`). -/

def BASE_URL : String := "https://www.hmmt.org/www/archive/problems"

def OUTPUT_DIR : String := "downloaded_pdfs"

def CONCURRENT_REQUESTS : Nat := 10

structure LogEntry where
  url : String
  filename : String
deriving DecidableEq, Repr

structure Env where
  pageAttempt : String → Nat → Except NetErr Doc
  dlAttempt : String → Nat → Except NetErr (List Nat)
  pick : Nat → Nat → Fin 62

/-- Model of `get_links_in_content` including its retried fetch. -/
def getLinksRun (env : Env) (url : String) : Except PyExc (List String) :=
  match (retryCall (env.pageAttempt url)).1 with
  | .ok doc => .ok (extractLinks url doc)
  | .error e => .error e

/-- Python `set.add` on the insertion-ordered view of a `set` of strings. -/
def setAdd (s : List String) (x : String) : List String :=
  if x ∈ s then s else s ++ [x]

/-- Python `set.update`. -/
def setUpdate (s : List String) (xs : List String) : List String :=
  xs.foldl setAdd s

/-- The suffix filter of line 184: `url.lower().endswith(".pdf")`. -/
def isPdfLink (u : String) : Bool :=
  pyEndsWith (pyLower u) ".pdf"

/-- The discovery loop (lines 180–187).  Returns the uncaught exception if
one propagates, the accumulated `pdf_links` set, and the subpages a warning
was printed for. -/
def discoverLoop (env : Env) :
    List String → List String → List String →
    Option PyExc × List String × List String
  | [], acc, warns => (none, acc, warns)
  | p :: ps, acc, warns =>
    match getLinksRun env p with
    | .ok ls => discoverLoop env ps (setUpdate acc (ls.filter isPdfLink)) warns
    | .error (.retryError _) => discoverLoop env ps acc (warns ++ [p])
    | .error (.raised e) => (some (.raised e), acc, warns)

/-- One `download_file(session, url, out_dir)` task (lines 112–141), the
`i`-th one launched: on success, the path written and the entry appended to
`download_log`. -/
def downloadFileRun (env : Env) (i : Nat) (url outDir : String) :
    Except PyExc (String × LogEntry) :=
  let fname := uniqueFilename url (random_string (env.pick i) 12)
  let fpath := pyPathJoin outDir fname
  match (retryCall (env.dlAttempt url)).1 with
  | .ok _ => .ok (fpath, ⟨url, fname⟩)
  | .error e => .error e

/-- The download await loop (lines 195–201).  Returns the uncaught exception
if one propagates, the paths written, the `download_log` contents, and the
causes warned about. -/
def downloadLoop (env : Env) (outDir : String) :
    List String → Nat → List String → List LogEntry → List NetErr →
    Option PyExc × List String × List LogEntry × List NetErr
  | [], _, files, log, warns => (none, files, log, warns)
  | u :: us, i, files, log, warns =>
    match downloadFileRun env i u outDir with
    | .ok (fp, entry) =>
      downloadLoop env outDir us (i + 1) (files ++ [fp]) (log ++ [entry]) warns
    | .error (.retryError e) =>
      downloadLoop env outDir us (i + 1) files log (warns ++ [e])
    | .error (.raised e) => (some (.raised e), files, log, warns)

/-- Observable outcome of one run of `scrape()`. -/
structure RunOut where
  exc : Option PyExc
  subpages : List String
  pdfLinks : List String
  fetchWarnings : List String
  dlWarnings : List NetErr
  files : List String
  log : List LogEntry
  logWritten : Bool
deriving DecidableEq, Repr

/-- Model of `scrape()` (lines 162–206).  The serialization of `download_log` to
`LOG_FILE` (lines 203–205) runs exactly when no exception propagated out of
the two loops; an exception aborts `scrape` before the write. -/
def scrape (env : Env) : RunOut :=
  match getLinksRun env BASE_URL with
  | .error e => ⟨some e, [], [], [], [], [], [], false⟩
  | .ok linksPages =>
    match discoverLoop env linksPages [] [] with
    | (some e, pdfs, warns) => ⟨some e, linksPages, pdfs, warns, [], [], [], false⟩
    | (none, pdfs, warns) =>
      match downloadLoop env OUTPUT_DIR pdfs 0 [] [] [] with
      | (some e, files, log, dwarns) =>
        ⟨some e, linksPages, pdfs, warns, dwarns, files, log, false⟩
      | (none, files, log, dwarns) =>
        ⟨none, linksPages, pdfs, warns, dwarns, files, log, true⟩

/-! ## The concurrency limiter (src/main.py lines 61, 105, 133)

`sem = asyncio.Semaphore(CONCURRENT_REQUESTS)` gates every attempt of
`fetch_html` and `download_file` through `async with sem:`.  Each task is a
sequence of attempts; an attempt is `(steps, raises)`: it acquires a slot,
performs `steps` units of work inside the critical region (request, timeout
window), and exits either normally or by raising.  The `async with` block
releases the slot on both exits.  `SemStep` is the small-step interleaving
semantics of the system. -/

inductive TaskSt where
  | idle (prog : List (Nat × Bool))
  | holding (remaining : Nat) (raises : Bool) (prog : List (Nat × Bool))
deriving DecidableEq, Repr

def TaskSt.isHolding : TaskSt → Bool
  | .holding _ _ _ => true
  | .idle _ => false

structure SemSys where
  count : Nat
  tasks : List TaskSt
deriving DecidableEq, Repr

/-- Number of tasks currently holding a limiter slot (in-flight HTTP
operations). -/
def activeCount (s : SemSys) : Nat :=
  (s.tasks.filter TaskSt.isHolding).length

/-- One scheduler step.  `acquire` suspends unless a slot is free (the
`count + 1` pattern); `release` fires on BOTH exit paths of the `async with`
block: `raises = false` (success) and `raises = true` (timeout or error). -/
inductive SemStep : SemSys → SemSys → Prop where
  | acquire (c : Nat) (l r : List TaskSt) (steps : Nat) (raises : Bool)
      (prog : List (Nat × Bool)) :
      SemStep ⟨c + 1, l ++ .idle ((steps, raises) :: prog) :: r⟩
              ⟨c, l ++ .holding steps raises prog :: r⟩
  | work (c : Nat) (l r : List TaskSt) (steps : Nat) (raises : Bool)
      (prog : List (Nat × Bool)) :
      SemStep ⟨c, l ++ .holding (steps + 1) raises prog :: r⟩
              ⟨c, l ++ .holding steps raises prog :: r⟩
  | release (c : Nat) (l r : List TaskSt) (raises : Bool)
      (prog : List (Nat × Bool)) :
      SemStep ⟨c, l ++ .holding 0 raises prog :: r⟩
              ⟨c + 1, l ++ .idle prog :: r⟩

/-- Initial state: a full limiter of capacity `n` and every task idle. -/
def semInit (n : Nat) (progs : List (List (Nat × Bool))) : SemSys :=
  ⟨n, progs.map TaskSt.idle⟩

/-- States reachable during a run. -/
def SemReachable (n : Nat) (progs : List (List (Nat × Bool))) (s : SemSys) : Prop :=
  Relation.ReflTransGen SemStep (semInit n progs) s

/-! ## Concrete run fixtures

Small closed environments used to evaluate the model on explicit inputs. -/

def subURL : String := "https://www.hmmt.org/www/archive/233"

def aURL : String := "https://www.hmmt.org/www/archive/a.pdf"

def bURL : String := "https://www.hmmt.org/www/archive/b.pdf"

def docIndex : Doc :=
  .ofList [.elem "div" [("id", "content")]
    (.ofList [.elem "a" [("href", "/www/archive/233")] .nil])]

def docSub : Doc :=
  .ofList [.elem "div" [("id", "content")]
    (.ofList [.elem "a" [("href", "a.pdf")] .nil, .elem "a" [("href", "b.pdf")] .nil])]

/-- Run where target A downloads fine and target B exhausts its retries. -/
def envC1 : Env where
  pageAttempt := fun url _ =>
    if url = BASE_URL then .ok docIndex
    else if url = subURL then .ok docSub
    else .error .timeout
  dlAttempt := fun url _ =>
    if url = aURL then .ok [0] else .error (.status 500)
  pick := fun _ _ => ⟨0, by decide⟩

def sub8URL : String := "https://www.hmmt.org/www/archive/234"

def cURL : String := "https://www.hmmt.org/www/archive/c.pdf"

def dURL : String := "https://www.hmmt.org/www/archive/d.pdf"

def docIndex8 : Doc :=
  .ofList [.elem "div" [("id", "content")]
    (.ofList [.elem "a" [("href", "/www/archive/234")] .nil])]

def docSub8 : Doc :=
  .ofList [.elem "div" [("id", "content")]
    (.ofList [.elem "a" [("href", "c.pdf")] .nil, .elem "a" [("href", "d.pdf")] .nil])]

/-- Run where target C downloads fine and target D exhausts its retries. -/
def envC8 : Env where
  pageAttempt := fun url _ =>
    if url = BASE_URL then .ok docIndex8
    else if url = sub8URL then .ok docSub8
    else .error .timeout
  dlAttempt := fun url _ =>
    if url = cURL then .ok [0] else .error .timeout
  pick := fun _ _ => ⟨0, by decide⟩

def xExamURL : String := "https://www.hmmt.org/www/archive/x/exam.pdf"

def yExamURL : String := "https://www.hmmt.org/www/archive/y/exam.pdf"

def docSub6 : Doc :=
  .ofList [.elem "div" [("id", "content")]
    (.ofList [.elem "a" [("href", "x/exam.pdf")] .nil,
              .elem "a" [("href", "y/exam.pdf")] .nil])]

def docIndex6 : Doc :=
  .ofList [.elem "div" [("id", "content")]
    (.ofList [.elem "a" [("href", "/www/archive/235")] .nil])]

/-- Run with two targets sharing the basename `exam.pdf`, both downloads
succeeding, and an RNG stream that repeats itself. -/
def envC6 : Env where
  pageAttempt := fun url _ =>
    if url = BASE_URL then .ok docIndex6
    else if url = "https://www.hmmt.org/www/archive/235" then .ok docSub6
    else .error .timeout
  dlAttempt := fun _ _ => .ok [0]
  pick := fun _ _ => ⟨0, by decide⟩

def ePDFURL : String := "https://www.hmmt.org/www/archive/e.PDF"

def docSub5 : Doc :=
  .ofList [.elem "div" [("id", "content")]
    (.ofList [.elem "a" [("href", "e.PDF")] .nil,
              .elem "a" [("href", "f.pdf.html")] .nil,
              .elem "a" [("href", "e.PDF")] .nil])]

/-- Single-page discovery environment with a `.PDF` link (twice) and a
`.pdf.html` link. -/
def envC5 : Env where
  pageAttempt := fun url _ =>
    if url = sub8URL then .ok docSub5 else .error .timeout
  dlAttempt := fun _ _ => .ok [0]
  pick := fun _ _ => ⟨0, by decide⟩

/-- Environment whose index page never becomes fetchable. -/
def envC10 : Env where
  pageAttempt := fun _ _ => .error .timeout
  dlAttempt := fun _ _ => .error .timeout
  pick := fun _ _ => ⟨0, by decide⟩

/-! ### Basic retry lemmas -/

theorem retryGo_calls_ge {α : Type} (f : Nat → Except NetErr α) :
    ∀ (n k : Nat), ∀ j ∈ (retryGo f n k).2, k ≤ j := by
  intro n
  induction n with
  | zero =>
    intro k j hj
    simp only [retryGo] at hj
    cases hfk : f k with
    | ok a => rw [hfk] at hj; simp at hj; omega
    | error e => rw [hfk] at hj; simp at hj; omega
  | succ n ih =>
    intro k j hj
    simp only [retryGo] at hj
    cases hfk : f k with
    | ok a => rw [hfk] at hj; simp at hj; omega
    | error e =>
      rw [hfk] at hj
      simp only [List.mem_cons] at hj
      rcases hj with h | h
      · omega
      · have := ih (k + 1) j h; omega

theorem retryGo_calls_length {α : Type} (f : Nat → Except NetErr α) :
    ∀ (n k : Nat), (retryGo f n k).2.length ≤ n + 1 := by
  intro n
  induction n with
  | zero =>
    intro k
    simp only [retryGo]
    cases f k <;> simp
  | succ n ih =>
    intro k
    simp only [retryGo]
    cases f k with
    | ok a => simp
    | error e =>
      simp only [List.length_cons]
      have := ih (k + 1)
      omega

theorem retryGo_no_retryError {α : Type} (f : Nat → Except NetErr α) (e : NetErr) :
    ∀ (n k : Nat), (retryGo f n k).1 ≠ .error (.retryError e) := by
  intro n
  induction n with
  | zero =>
    intro k
    simp only [retryGo]
    cases f k <;> simp
  | succ n ih =>
    intro k
    simp only [retryGo]
    cases f k with
    | ok a => simp
    | error e₁ => exact ih (k + 1)

/-- A tenacity call configured with `reraise=True` never surfaces a
`RetryError`: the `except RetryError` handlers in `scrape` are unreachable. -/
theorem retryCall_no_retryError {α : Type} (f : Nat → Except NetErr α) (e : NetErr) :
    (retryCall f).1 ≠ .error (.retryError e) :=
  retryGo_no_retryError f e (maxAttempts - 1) 1

/-- Exhaustion: when attempts 1–5 all fail, the call makes exactly the five
attempts and surfaces the fifth attempt's exception. -/
theorem retryCall_exhausted {α : Type} (f : Nat → Except NetErr α) (e : Nat → NetErr)
    (hf : ∀ k, 1 ≤ k → k ≤ 5 → f k = .error (e k)) :
    retryCall f = (.error (.raised (e 5)), [1, 2, 3, 4, 5]) := by
  have h1 := hf 1 (by omega) (by omega)
  have h2 := hf 2 (by omega) (by omega)
  have h3 := hf 3 (by omega) (by omega)
  have h4 := hf 4 (by omega) (by omega)
  have h5 := hf 5 (by omega) (by omega)
  show retryGo f 4 1 = _
  simp [retryGo, h1, h2, h3, h4, h5]

/-- The wait of `retry_async()` after failed attempt `k` is
`min(max_wait, base * 2^(k-1))` with `base = 1`, `max_wait = 10`. -/
theorem retryWait_eq (k : Nat) (hk : 1 ≤ k) :
    retryWait k = min 10 (1 * 2 ^ (k - 1)) := by
  unfold retryWait wait_exponential
  have h1 : (1 : Nat) ≤ 2 ^ (k - 1) := Nat.one_le_two_pow
  generalize 2 ^ (k - 1) = x at h1 ⊢
  omega

/-- Every attempt number produced by `retryCall` is at least 1. -/
theorem retryCall_calls_ge_one {α : Type} (f : Nat → Except NetErr α) :
    ∀ j ∈ (retryCall f).2, 1 ≤ j :=
  retryGo_calls_ge f (maxAttempts - 1) 1

/-- C2.  Retry exhaustion: at most 5 total attempts are made for any input;
when every attempt fails, exactly attempts 1–5 run, the call fails with the
surfaced exception carrying the last cause (`reraise=True` re-raises the
fifth attempt's exception itself), and no further attempts occur. -/
theorem retry_exhaustion {α : Type} (f : Nat → Except NetErr α) (e : Nat → NetErr)
    (hf : ∀ k, 1 ≤ k → k ≤ 5 → f k = .error (e k)) :
    (retryCall f).1 = .error (.raised (e 5)) ∧
    (retryCall f).2 = [1, 2, 3, 4, 5] ∧
    (∀ (g : Nat → Except NetErr α), (retryCall g).2.length ≤ 5) := by
  refine ⟨?_, ?_, ?_⟩
  · rw [retryCall_exhausted f e hf]
  · rw [retryCall_exhausted f e hf]
  · intro g
    exact retryGo_calls_length g (maxAttempts - 1) 1

/-- Witness for C2 at the concrete always-failing fetch. -/
theorem retry_exhaustion_witness :
    (retryCall (fun _ => (.error .timeout : Except NetErr Unit))).1 =
      .error (.raised .timeout) ∧
    (retryCall (fun _ => (.error .timeout : Except NetErr Unit))).2 = [1, 2, 3, 4, 5] ∧
    (∀ (g : Nat → Except NetErr Unit), (retryCall g).2.length ≤ 5) :=
  retry_exhaustion (fun _ => .error .timeout) (fun _ => .timeout)
    (fun _ _ _ => rfl)

/-- C3.  Backoff schedule: the sleep after failed attempt `k` (performed
before the next attempt) is `min(10, 1 * 2^(k-1))` seconds, and the sleeps of
a retried call are exactly that function mapped over its non-final attempt
numbers.  The jitter of line 104/127 happens outside the tenacity wait. -/
theorem backoff_schedule (k : Nat) (hk : 1 ≤ k) :
    retryWait k = min 10 (1 * 2 ^ (k - 1)) ∧
    (∀ {α : Type} (f : Nat → Except NetErr α),
      retrySchedule f = (retryCall f).2.dropLast.map (fun j => min 10 (1 * 2 ^ (j - 1)))) := by
  constructor
  · exact retryWait_eq k hk
  · intro α f
    unfold retrySchedule
    refine List.map_congr_left ?_
    intro j hj
    have hmem : j ∈ (retryCall f).2 := (List.dropLast_sublist _).subset hj
    exact retryWait_eq j (retryCall_calls_ge_one f j hmem)

/-- Witness for C3 at attempt number 4. -/
theorem backoff_schedule_witness :
    1 ≤ 4 ∧ retryWait 4 = min 10 (1 * 2 ^ (4 - 1)) :=
  ⟨by decide, (backoff_schedule 4 (by decide)).1⟩

/-! ### Link extraction (C4) -/

theorem findq_append {α : Type} (p : α → Bool) (l₁ l₂ : List α) :
    (l₁ ++ l₂).find? p =
      (match l₁.find? p with
       | some a => some a
       | none => l₂.find? p) := by
  induction l₁ with
  | nil => simp
  | cons a l ih =>
    by_cases h : p a
    · simp [List.find?, h]
    · simp only [List.cons_append, List.find?, h]
      exact ih

mutual

theorem findNode_preorder (n : Node) :
    findNode isContentDiv n = (preorder n).find? isContentDiv := by
  cases n with
  | text s => simp [findNode, preorder, List.find?, isContentDiv]
  | elem t a cs =>
    by_cases h : isContentDiv (.elem t a cs)
    · simp [findNode, preorder, List.find?, h]
    · simp only [findNode, preorder, List.find?, h, if_false, Bool.false_eq_true]
      exact findNodeList_preorder cs

theorem findNodeList_preorder (ns : NodeList) :
    findNodeList isContentDiv ns = (preorderList ns).find? isContentDiv := by
  cases ns with
  | nil => simp [findNodeList, preorderList, List.find?]
  | cons n ns =>
    simp only [findNodeList, preorderList]
    rw [findq_append, ← findNode_preorder n, ← findNodeList_preorder ns]
    cases findNode isContentDiv n <;> rfl

end

mutual

theorem anchorHrefs_preorder (n : Node) :
    anchorHrefs n = (preorder n).filterMap anchorHrefOf := by
  cases n with
  | text s => simp [anchorHrefs, preorder, anchorHrefOf]
  | elem t a cs =>
    simp only [anchorHrefs, preorder, List.filterMap_cons]
    have hcs := anchorHrefsList_preorder cs
    by_cases ht : t = "a"
    · cases hg : attrGet a "href" with
      | some v => simp [anchorHrefOf, ht, hg, hcs]
      | none => simp [anchorHrefOf, ht, hg, hcs]
    · simp [anchorHrefOf, ht, hcs]

theorem anchorHrefsList_preorder (ns : NodeList) :
    anchorHrefsList ns = (preorderList ns).filterMap anchorHrefOf := by
  cases ns with
  | nil => simp [anchorHrefsList, preorderList]
  | cons n ns =>
    simp only [anchorHrefsList, preorderList, List.filterMap_append]
    rw [anchorHrefs_preorder n, anchorHrefsList_preorder ns]

end

/-- C4.  Link extraction: `get_links_in_content`'s pure part returns exactly
the `href` values of the anchors inside the first `div` with id `content`
(in document order), each resolved against the page URL with `urljoin`, and
the empty sequence when that container is absent; the Lean model is total, so
no exception is possible.  `extractLinksSpec` restates the spec's words
independently of the source structure. -/
theorem link_extraction (pageURL : String) (doc : Doc) :
    extractLinks pageURL doc = extractLinksSpec pageURL doc := by
  unfold extractLinks extractLinksSpec
  rw [← findNodeList_preorder doc]
  cases h : findNodeList isContentDiv doc with
  | none => rfl
  | some cd =>
    cases cd with
    | elem t a cs => simp [anchorHrefsList_preorder cs]
    | text s =>
      exfalso
      rw [findNodeList_preorder doc] at h
      have := List.find?_some h
      simp [isContentDiv] at this

/-! ### Discovery: filtering and deduplication (C5) -/

theorem getLinksRun_no_retryError (env : Env) (url : String) (e : NetErr) :
    getLinksRun env url ≠ .error (.retryError e) := by
  unfold getLinksRun
  cases h : (retryCall (env.pageAttempt url)).1 with
  | ok doc => simp
  | error ex =>
    cases ex with
    | retryError e₁ => exact absurd h (retryCall_no_retryError _ e₁)
    | raised e₁ => simp

theorem setAdd_mem (s : List String) (x u : String) :
    u ∈ setAdd s x ↔ u ∈ s ∨ u = x := by
  unfold setAdd
  by_cases h : x ∈ s
  · simp only [h, if_true]
    constructor
    · exact fun hu => Or.inl hu
    · rintro (hu | rfl)
      · exact hu
      · exact h
  · simp [h]

theorem setAdd_nodup (s : List String) (x : String) (h : s.Nodup) :
    (setAdd s x).Nodup := by
  unfold setAdd
  by_cases hx : x ∈ s
  · simpa [hx]
  · simp [hx, List.nodup_append, h]

theorem setUpdate_mem (xs : List String) :
    ∀ (s : List String) (u : String), u ∈ setUpdate s xs ↔ u ∈ s ∨ u ∈ xs := by
  induction xs with
  | nil => simp [setUpdate]
  | cons x xs ih =>
    intro s u
    show u ∈ setUpdate (setAdd s x) xs ↔ _
    rw [ih (setAdd s x) u, setAdd_mem]
    simp [List.mem_cons]
    tauto

theorem setUpdate_nodup (xs : List String) :
    ∀ (s : List String), s.Nodup → (setUpdate s xs).Nodup := by
  induction xs with
  | nil => intro s h; exact h
  | cons x xs ih =>
    intro s h
    exact ih (setAdd s x) (setAdd_nodup s x h)

/-- Membership in the accumulated `pdf_links` set, for a discovery loop that
runs to completion. -/
theorem discoverLoop_mem (env : Env) :
    ∀ (ps acc warns : List String),
      (discoverLoop env ps acc warns).1 = none →
      ∀ u, u ∈ (discoverLoop env ps acc warns).2.1 ↔
        u ∈ acc ∨ ∃ p ∈ ps, ∃ ls, getLinksRun env p = .ok ls ∧ u ∈ ls ∧ isPdfLink u = true := by
  intro ps
  induction ps with
  | nil =>
    intro acc warns _ u
    simp [discoverLoop]
  | cons p ps ih =>
    intro acc warns hok u
    cases hp : getLinksRun env p with
    | ok ls =>
      rw [discoverLoop] at hok ⊢
      rw [hp] at hok ⊢
      rw [ih _ _ hok u, setUpdate_mem]
      simp only [List.mem_filter, List.mem_cons]
      constructor
      · rintro ((hu | ⟨hls, hpdf⟩) | ⟨q, hq, ls₂, hg, hu, hpdf⟩)
        · exact Or.inl hu
        · exact Or.inr ⟨p, Or.inl rfl, ls, hp, hls, hpdf⟩
        · exact Or.inr ⟨q, Or.inr hq, ls₂, hg, hu, hpdf⟩
      · rintro (hu | ⟨q, (rfl | hq), ls₂, hg, hu, hpdf⟩)
        · exact Or.inl (Or.inl hu)
        · rw [hp] at hg
          cases hg
          exact Or.inl (Or.inr ⟨hu, hpdf⟩)
        · exact Or.inr ⟨q, hq, ls₂, hg, hu, hpdf⟩
    | error ex =>
      cases ex with
      | retryError e => exact absurd hp (getLinksRun_no_retryError env p e)
      | raised e =>
        rw [discoverLoop] at hok
        rw [hp] at hok
        simp at hok

/-- The accumulated `pdf_links` set stays duplicate-free. -/
theorem discoverLoop_nodup (env : Env) :
    ∀ (ps acc warns : List String), acc.Nodup →
      ((discoverLoop env ps acc warns).2.1).Nodup := by
  intro ps
  induction ps with
  | nil => intro acc warns h; exact h
  | cons p ps ih =>
    intro acc warns h
    rw [discoverLoop]
    cases hp : getLinksRun env p with
    | ok ls => exact ih _ _ (setUpdate_nodup _ _ h)
    | error ex =>
      cases ex with
      | retryError e => exact ih _ _ h
      | raised e => exact h

/-- C5.  Target-set filter and deduplication: a completed discovery pass
collects exactly the subpage links whose URL passes the case-insensitive
`.pdf` suffix test of line 184, deduplicated by exact URL string; `.PDF` is
accepted, `.pdf.html` rejected. -/
theorem target_set_filter_dedup (env : Env) (pages : List String)
    (hok : (discoverLoop env pages [] []).1 = none) :
    ((discoverLoop env pages [] []).2.1).Nodup ∧
    (∀ u, u ∈ (discoverLoop env pages [] []).2.1 ↔
      ∃ p ∈ pages, ∃ ls, getLinksRun env p = .ok ls ∧ u ∈ ls ∧ isPdfLink u = true) ∧
    isPdfLink "https://www.hmmt.org/www/archive/e.PDF" = true ∧
    isPdfLink "https://www.hmmt.org/www/archive/f.pdf.html" = false := by
  refine ⟨discoverLoop_nodup env pages [] [] (by simp), ?_, by decide, by decide⟩
  intro u
  rw [discoverLoop_mem env pages [] [] hok u]
  simp

/-- Witness for C5 on a concrete single-subpage environment. -/
theorem target_set_filter_dedup_witness :
    ((discoverLoop envC5 [sub8URL] [] []).2.1).Nodup ∧
    (∀ u, u ∈ (discoverLoop envC5 [sub8URL] [] []).2.1 ↔
      ∃ p ∈ [sub8URL], ∃ ls, getLinksRun envC5 p = .ok ls ∧ u ∈ ls ∧ isPdfLink u = true) ∧
    isPdfLink "https://www.hmmt.org/www/archive/e.PDF" = true ∧
    isPdfLink "https://www.hmmt.org/www/archive/f.pdf.html" = false :=
  target_set_filter_dedup envC5 [sub8URL] (by decide)

/-! ### Partial-failure handling and the run log (C1, C8) -/

/-- The list `download_log` is append-only: the download loop only ever extends it. -/
theorem downloadLoop_log_extends (env : Env) (outDir : String) :
    ∀ (us : List String) (i : Nat) (files : List String) (log : List LogEntry)
      (warns : List NetErr),
      ∃ t, (downloadLoop env outDir us i files log warns).2.2.1 = log ++ t := by
  intro us
  induction us with
  | nil => intro i files log warns; exact ⟨[], by simp [downloadLoop]⟩
  | cons u us ih =>
    intro i files log warns
    rw [downloadLoop]
    cases hd : downloadFileRun env i u outDir with
    | ok r =>
      obtain ⟨t, ht⟩ := ih (i + 1) (files ++ [r.1]) (log ++ [r.2]) warns
      exact ⟨[r.2] ++ t, by simpa using ht⟩
    | error ex =>
      cases ex with
      | retryError e => exact ih (i + 1) files log (warns ++ [e])
      | raised e => exact ⟨[], by simp⟩

/-- C1 (behaviour at the claim's own scenario).  With targets `{A, B}` where
A's download succeeds and B's exhausts its retries, `scrape` does NOT
complete: B's underlying exception (re-raised by tenacity because of
`reraise=True`) is not a `RetryError`, so the `except RetryError` handler of
lines 198–201 never fires — no warning is emitted, the run aborts, and the
log file is never written (`logWritten = false`), even though the in-memory
`download_log` holds A's entry.  The second conjunct shows the handler is
dead code for every input. -/
theorem run_aborts_on_single_download_failure :
    scrape envC1 =
      ⟨some (.raised (.status 500)), [subURL], [aURL, bURL], [], [],
       ["downloaded_pdfs/a_aaaaaaaaaaaa.pdf"], [⟨aURL, "a_aaaaaaaaaaaa.pdf"⟩],
       false⟩ ∧
    (∀ (f : Nat → Except NetErr (List Nat)) (e : NetErr),
      (retryCall f).1 ≠ .error (.retryError e)) :=
  ⟨by decide, fun f e => retryCall_no_retryError f e⟩

/-- C8 (behaviour on a failing run).  When any download task exhausts its
retries, the exception aborts the `as_completed` loop and `scrape` never
reaches the log-file write of lines 203–205: the serialization happens zero
times, not exactly once, although the in-memory log is append-only (second
conjunct) and already holds the successful entry. -/
theorem runlog_not_flushed_on_failure :
    ((scrape envC8).log = [⟨cURL, "c_aaaaaaaaaaaa.pdf"⟩] ∧
     (scrape envC8).logWritten = false ∧
     (scrape envC8).exc = some (.raised .timeout)) ∧
    (∀ (env : Env) (outDir : String) (us : List String) (i : Nat)
       (files : List String) (log : List LogEntry) (warns : List NetErr),
      ∃ t, (downloadLoop env outDir us i files log warns).2.2.1 = log ++ t) :=
  ⟨by decide, fun env outDir us i files log warns =>
    downloadLoop_log_extends env outDir us i files log warns⟩

/-! ### Collision-safe naming (C6) -/

theorem string_eq_of_data_eq {s t : String} (h : s.data = t.data) : s = t := by
  cases s
  cases t
  simp_all

theorem alnum_getD_mem (v : Nat) (h : v < 62) (d : Char) :
    asciiAlnum.getD v d ∈ asciiAlnum := by
  have hl : v < asciiAlnum.length := by
    rw [show asciiAlnum.length = 62 from rfl]
    exact h
  rw [List.getD_eq_getElem asciiAlnum d hl]
  exact asciiAlnum.getElem_mem hl

theorem random_string_length (pickc : Nat → Fin 62) (n : Nat) :
    (random_string pickc n).length = n := by
  simp [random_string, String.length]

theorem random_string_alnum (pickc : Nat → Fin 62) (n : Nat) :
    ∀ c ∈ (random_string pickc n).data, c ∈ asciiAlnum := by
  intro c hc
  simp only [random_string, List.mem_map, List.mem_range] at hc
  obtain ⟨i, _, rfl⟩ := hc
  exact alnum_getD_mem (pickc i).val (pickc i).isLt 'a'

theorem basename_no_slash (p : String) : ∀ c ∈ (pyBasename p).data, c ≠ '/' := by
  intro c hc
  simp only [pyBasename, List.mem_reverse] at hc
  have := List.mem_takeWhile_imp hc
  simpa using this

theorem headD_append_ne_slash (l₁ l₂ : List Char)
    (h₁ : ∀ c ∈ l₁, c ≠ '/') (h₂ : l₂.headD ' ' ≠ '/') :
    ((l₁ ++ l₂).headD ' ') ≠ '/' := by
  cases l₁ with
  | nil => simpa using h₂
  | cons c cs =>
    simp only [List.cons_append, List.headD_cons]
    exact h₁ c (List.mem_cons_self c cs)

/-- The name part produced by `os.path.splitext` only uses characters of its
input. -/
theorem pySplitext_fst_subset (f : String) :
    ∀ c ∈ (pySplitext f).1.data, c ∈ f.data := by
  intro c hc
  simp only [pySplitext] at hc
  split at hc
  · split at hc
    · exact hc
    · exact List.take_subset _ _ hc
  · exact hc

/-- The filename built by `download_file` never starts with `/` (its basename
part contains no separator at all). -/
theorem uniqueFilename_head_ne_slash (url suffix : String) :
    (uniqueFilename url suffix).data.headD ' ' ≠ '/' := by
  have hsub : ∀ c ∈ (pySplitext (pyBasename (urlparse url "").path)).1.data, c ≠ '/' :=
    fun c hc => basename_no_slash _ c (pySplitext_fst_subset _ c hc)
  show ((pySplitext (pyBasename (urlparse url "").path)).1 ++ "_" ++ suffix ++
      (pySplitext (pyBasename (urlparse url "").path)).2).data.headD ' ' ≠ '/'
  rw [String.data_append, String.data_append, String.data_append,
    List.append_assoc, List.append_assoc]
  refine headD_append_ne_slash _ _ hsub ?_
  simp [show ("_" : String).data = ['_'] from rfl]

theorem uniqueFilename_injective_suffix (u1 u2 s1 s2 : String)
    (hbase : pyBasename (urlparse u1 "").path = pyBasename (urlparse u2 "").path)
    (hsuf : s1 ≠ s2) :
    uniqueFilename u1 s1 ≠ uniqueFilename u2 s2 := by
  unfold uniqueFilename
  rw [hbase]
  intro h
  apply hsuf
  apply string_eq_of_data_eq
  have hd := congrArg String.data h
  simp only [String.data_append] at hd
  have h₁ := List.append_cancel_right hd
  exact List.append_cancel_left h₁

theorem pyPathJoin_injective_right (a f1 f2 : String)
    (h1 : f1.data.headD ' ' ≠ '/') (h2 : f2.data.headD ' ' ≠ '/')
    (hne : f1 ≠ f2) :
    pyPathJoin a f1 ≠ pyPathJoin a f2 := by
  unfold pyPathJoin
  rw [if_neg h1, if_neg h2]
  split
  · intro h
    have hd := congrArg String.data h
    rw [String.data_append, String.data_append] at hd
    exact hne (string_eq_of_data_eq (List.append_cancel_left hd))
  · intro h
    have hd := congrArg String.data h
    rw [String.data_append, String.data_append, String.data_append,
      String.data_append] at hd
    exact hne (string_eq_of_data_eq (List.append_cancel_left hd))

/-- C6 counterexample.  Two distinct target URLs sharing the basename
`exam.pdf`, with an RNG stream that repeats its choices, produce the SAME
output path (second write overwrites the first) and two log entries with
EQUAL `filename` values: the claim's unconditional distinctness fails. -/
theorem collision_naming_cex :
    (scrape envC6).log =
      [⟨xExamURL, "exam_aaaaaaaaaaaa.pdf"⟩, ⟨yExamURL, "exam_aaaaaaaaaaaa.pdf"⟩] ∧
    xExamURL ≠ yExamURL ∧
    (scrape envC6).files =
      ["downloaded_pdfs/exam_aaaaaaaaaaaa.pdf", "downloaded_pdfs/exam_aaaaaaaaaaaa.pdf"] ∧
    (scrape envC6).exc = none := by
  refine ⟨by decide, by decide, by decide, by decide⟩

/-- C6 amended.  The output file is `<outputDir>/<basename>_<suffix>.<ext>`
with `suffix` a 12-character string over the 62-letter alphanumeric alphabet,
and two target URLs sharing a basename yield distinct filenames, paths and
log-entry `filename` values PROVIDED the two generated random suffixes
differ (the code never re-checks for suffix collisions). -/
theorem collision_naming_amended (outDir u1 u2 : String) (p1 p2 : Nat → Fin 62)
    (hbase : pyBasename (urlparse u1 "").path = pyBasename (urlparse u2 "").path)
    (hsuf : random_string p1 12 ≠ random_string p2 12) :
    (random_string p1 12).length = 12 ∧
    (∀ c ∈ (random_string p1 12).data, c ∈ asciiAlnum) ∧
    uniqueFilename u1 (random_string p1 12) ≠ uniqueFilename u2 (random_string p2 12) ∧
    pyPathJoin outDir (uniqueFilename u1 (random_string p1 12)) ≠
      pyPathJoin outDir (uniqueFilename u2 (random_string p2 12)) := by
  have hfn := uniqueFilename_injective_suffix u1 u2 _ _ hbase hsuf
  refine ⟨random_string_length p1 12, random_string_alnum p1 12, hfn, ?_⟩
  exact pyPathJoin_injective_right outDir _ _
    (uniqueFilename_head_ne_slash u1 _) (uniqueFilename_head_ne_slash u2 _) hfn

/-- Witness for the amended C6 at two concrete same-basename URLs and two
differing suffix streams. -/
theorem collision_naming_amended_witness :
    pyBasename (urlparse xExamURL "").path = pyBasename (urlparse yExamURL "").path ∧
    random_string (fun _ => (⟨0, by decide⟩ : Fin 62)) 12 ≠
      random_string (fun _ => (⟨1, by decide⟩ : Fin 62)) 12 ∧
    uniqueFilename xExamURL (random_string (fun _ => (⟨0, by decide⟩ : Fin 62)) 12) ≠
      uniqueFilename yExamURL (random_string (fun _ => (⟨1, by decide⟩ : Fin 62)) 12) :=
  ⟨by decide, by decide,
    (collision_naming_amended "downloaded_pdfs" xExamURL yExamURL
      (fun _ => ⟨0, by decide⟩) (fun _ => ⟨1, by decide⟩)
      (by decide) (by decide)).2.2.1⟩

/-! ### The concurrency limiter invariant (C7) -/

/-- Every scheduler step preserves `count + active`. -/
theorem semStep_invariant {s s' : SemSys} (h : SemStep s s') :
    s'.count + activeCount s' = s.count + activeCount s := by
  cases h with
  | acquire c l r steps raises prog =>
    simp only [activeCount, List.filter_append, List.filter_cons, List.length_append,
      TaskSt.isHolding]
    simp
    omega
  | work c l r steps raises prog =>
    simp [activeCount, List.filter_append, List.filter_cons, TaskSt.isHolding]
  | release c l r raises prog =>
    simp only [activeCount, List.filter_append, List.filter_cons, List.length_append,
      TaskSt.isHolding]
    simp
    omega

/-- In every reachable state, free slots plus in-flight operations equal the
configured capacity. -/
theorem semReachable_invariant (n : Nat) (progs : List (List (Nat × Bool))) :
    ∀ s, SemReachable n progs s → s.count + activeCount s = n := by
  intro s h
  unfold SemReachable at h
  induction h with
  | refl =>
    have : activeCount (semInit n progs) = 0 := by
      simp only [activeCount, semInit]
      induction progs with
      | nil => simp
      | cons p ps ih => simpa [TaskSt.isHolding] using ih
    simpa [semInit] using this
  | tail _ hstep ih =>
    rw [semStep_invariant hstep]
    exact ih

/-- C7.  Concurrency limiter: in every state reachable during a run the
number of tasks holding a limiter slot never exceeds the capacity `n`, and
the slot acquired for an attempt is released by a single step on BOTH exit
paths of the `async with sem:` block — `raises = false` (success) and
`raises = true` (timeout or error) alike. -/
theorem limiter_capacity (n : Nat) (progs : List (List (Nat × Bool))) (s : SemSys)
    (h : SemReachable n progs s) :
    activeCount s ≤ n ∧
    (∀ (c : Nat) (l r : List TaskSt) (raises : Bool) (prog : List (Nat × Bool)),
      SemStep ⟨c, l ++ .holding 0 raises prog :: r⟩ ⟨c + 1, l ++ .idle prog :: r⟩) := by
  constructor
  · have := semReachable_invariant n progs s h
    omega
  · intro c l r raises prog
    exact SemStep.release c l r raises prog

/-- Witness for C7: the initial state of a two-task run under the default
capacity `CONCURRENT_REQUESTS = 10`. -/
theorem limiter_capacity_witness :
    activeCount (semInit CONCURRENT_REQUESTS [[(1, false)], [(1, true)]]) ≤
      CONCURRENT_REQUESTS ∧
    (∀ (c : Nat) (l r : List TaskSt) (raises : Bool) (prog : List (Nat × Bool)),
      SemStep ⟨c, l ++ .holding 0 raises prog :: r⟩ ⟨c + 1, l ++ .idle prog :: r⟩) :=
  limiter_capacity CONCURRENT_REQUESTS [[(1, false)], [(1, true)]]
    (semInit CONCURRENT_REQUESTS [[(1, false)], [(1, true)]])
    Relation.ReflTransGen.refl

/-! ### URL resolution (C9) -/

/-- When a URL carries its own scheme, `urlsplit` ignores the default. -/
theorem urlsplit_default (url d : String) (h : (urlsplit url "").scheme ≠ "") :
    urlsplit url d = urlsplit url "" := by
  cases hs : splitScheme url.data with
  | none =>
    exfalso
    apply h
    simp [urlsplit, hs]
  | some pr => simp [urlsplit, hs]

theorem urlparse_scheme_eq (url d : String) :
    (urlparse url d).scheme = (urlsplit url d).scheme := by
  simp only [urlparse]
  split <;> rfl

/-- When a URL carries its own scheme, `urlparse` ignores the default. -/
theorem urlparse_default (url d : String) (h : (urlparse url "").scheme ≠ "") :
    urlparse url d = urlparse url "" := by
  rw [urlparse_scheme_eq] at h
  unfold urlparse
  rw [urlsplit_default url d h]

/-- Reassembling a parse with a nonempty network location never yields the
empty string. -/
theorem urlunparse_ne_empty (r : ParseResult) (h : r.netloc ≠ "") :
    urlunparse r ≠ "" := by
  simp only [urlunparse, urlunsplit]
  intro h0
  rw [String.ext_iff] at h0
  split_ifs at h0 <;>
    simp_all [String.data_append, show ("//" : String).data = ['/', '/'] from rfl,
      show ("" : String).data = [] from rfl]

/-- Every scheme treated as relative-capable also uses a netloc. -/
theorem usesRelative_sub : ∀ s ∈ usesRelative, s ∈ usesNetloc := by decide

/-- C9 counterexample.  `"HTTP://c/d"` is an absolute URL, yet resolving it
against `"http://a/b"` does not return it unchanged: `urljoin` lowercases the
scheme during parsing and reassembles the components. -/
theorem url_resolution_cex :
    urljoin "http://a/b" "HTTP://c/d" ≠ "HTTP://c/d" ∧
    urljoin "http://a/b" "HTTP://c/d" = "http://c/d" := by
  refine ⟨by decide, by decide⟩

/-- C9 amended.  Round-trip holds for absolute hrefs in canonical parsed form
(a scheme already lowercase — so that parsing reassembles to the original
string — and a nonempty network location): resolving such a href against any
base returns it unchanged.  Relative, root-relative and protocol-relative
hrefs resolve per standard URL-resolution semantics, shown on representative
inputs. -/
theorem url_resolution_amended (base url : String)
    (hscheme : (urlparse url "").scheme ≠ "")
    (hnet : (urlparse url "").netloc ≠ "")
    (hcanon : urlunparse (urlparse url "") = url) :
    urljoin base url = url ∧
    urljoin "http://a/b/c" "d/e" = "http://a/b/d/e" ∧
    urljoin "http://a/b" "//x/y" = "http://x/y" ∧
    urljoin "http://a/b" "/z" = "http://a/z" := by
  refine ⟨?_, by decide, by decide, by decide⟩
  by_cases hb : base = ""
  · simp [urljoin, hb]
  · have hurl : url ≠ "" := hcanon ▸ urlunparse_ne_empty _ hnet
    simp only [urljoin, hb, hurl, if_false, ite_false]
    rw [urlparse_default url (urlparse base "").scheme hscheme]
    split
    · rfl
    · rename_i hcond
      push_neg at hcond
      rw [if_pos ⟨usesRelative_sub _ hcond.2, hnet⟩]
      exact hcanon

/-- Witness for the amended C9 at a canonical absolute href. -/
theorem url_resolution_witness :
    ((urlparse "http://c/d" "").scheme ≠ "" ∧
     (urlparse "http://c/d" "").netloc ≠ "" ∧
     urlunparse (urlparse "http://c/d" "") = "http://c/d") ∧
    urljoin "http://a/b" "http://c/d" = "http://c/d" :=
  ⟨⟨by decide, by decide, by decide⟩,
    (url_resolution_amended "http://a/b" "http://c/d"
      (by decide) (by decide) (by decide)).1⟩

/-! ### Index-page failure (C10) -/

/-- C10.  If the initial fetch of the index page exhausts all five retry
attempts, the re-raised exception propagates uncaught out of `scrape`
(line 177 sits outside both `try` blocks): no subpage is processed, no
download is attempted, no warning is recorded and the log file is never
written. -/
theorem index_failure_propagates (env : Env) (e : Nat → NetErr)
    (hf : ∀ k, 1 ≤ k → k ≤ 5 → env.pageAttempt BASE_URL k = .error (e k)) :
    scrape env = ⟨some (.raised (e 5)), [], [], [], [], [], [], false⟩ := by
  have h : getLinksRun env BASE_URL = .error (.raised (e 5)) := by
    unfold getLinksRun
    rw [retryCall_exhausted (env.pageAttempt BASE_URL) e hf]
  unfold scrape
  rw [h]

/-- Witness for C10 at the environment whose index page always times out. -/
theorem index_failure_propagates_witness :
    scrape envC10 = ⟨some (.raised .timeout), [], [], [], [], [], [], false⟩ :=
  index_failure_propagates envC10 (fun _ => .timeout) (fun _ _ _ => rfl)

end Scraper
